import Mathlib

/-!
# Verification of the gh-ccimg image-acquisition pipeline

A shallow embedding, in Lean 4, of the core of the `gh-ccimg` Go program:
URL extraction from markdown (`markdown` package), the concurrent guarded
fetcher (`download` package), the storage backends (`storage` package) and
the AI-sink input validation (`claude` package).

Conventions of the embedding:
* Go byte slices become `List Nat`; Go strings become `String`
  (manipulated through their `List Char` representation so that every
  definition is kernel-executable).
* Go `int64` quantities that can overflow (the backoff-delay computation on
  `time.Duration`) are modelled as `Int` with explicit two's-complement
  wrapping at 64 bits.
* Errors become inductive error types carrying exactly the data the Go
  `fmt.Errorf` message interpolates (status code, attempt count, path, ...).
* Effectful methods become pure state-passing functions: a method on a
  receiver returns the result together with the updated receiver (and the
  updated filesystem, for `DiskStorage`).
* The filesystem is an explicit association list from paths to contents.
* External collaborators (the goldmark markdown parser, the Go regexp
  engine, the network) are abstracted as function parameters; everything
  that is code of this repository is translated concretely.
* `strings.ToLower` / `strings.TrimSpace` are modelled on ASCII data
  (`asciiLower` / `trimStr`); every string the program compares against
  (MIME types, file extensions, denylist patterns) is ASCII, where the two
  agree with the Go originals.
-/

namespace GhCcimg

/-! ## String helpers (models of the `strings` / `path/filepath` stdlib calls) -/

/-- ASCII lower-casing of a character, as `strings.ToLower` acts on ASCII. -/
def lowerChar (c : Char) : Char :=
  if 'A' ≤ c ∧ c ≤ 'Z' then Char.ofNat (c.toNat + 32) else c

/-- Model of `strings.ToLower` (ASCII fragment). -/
def asciiLower (s : String) : String :=
  ⟨s.data.map lowerChar⟩

/-- ASCII whitespace, the fragment of `unicode.IsSpace` our inputs use. -/
def isSpaceChar (c : Char) : Bool :=
  c = ' ' || c = '\t' || c = '\n' || c = '\r'

/-- Model of `strings.TrimSpace` (ASCII fragment). -/
def trimStr (s : String) : String :=
  ⟨((s.data.dropWhile isSpaceChar).reverse.dropWhile isSpaceChar).reverse⟩

/-- `isPre pat l` holds when `pat` is an initial segment of `l`;
model of `strings.HasPrefix` on character lists. -/
def isPre : List Char → List Char → Bool
  | [], _ => true
  | _ :: _, [] => false
  | a :: as, b :: bs => a == b && isPre as bs

/-- Model of `strings.HasPrefix`. -/
def strStartsWith (s pat : String) : Bool :=
  isPre pat.data s.data

/-- Substring occurrence on character lists. -/
def containsList (pat : List Char) : List Char → Bool
  | [] => pat.isEmpty
  | c :: rest => isPre pat (c :: rest) || containsList pat rest

/-- Model of `strings.Contains`. -/
def strContains (s pat : String) : Bool :=
  containsList pat.data s.data

/-- Model of the Go idiom
`if idx := strings.Index(s, c); idx > 0 { s = s[:idx] }`:
cut `s` at the first occurrence of `c` unless that occurrence is at
position 0 (or there is none). Used for `;`, `?` and `#` stripping. -/
def cutAtCharGo (c : Char) (s : String) : String :=
  match s.data with
  | [] => s
  | h :: _ => if h = c then s else ⟨s.data.takeWhile (· ≠ c)⟩

/-- The final slash-separated element of a path, as `filepath.Ext` isolates it. -/
def lastPathElem (s : List Char) : List Char :=
  (s.reverse.takeWhile (· ≠ '/')).reverse

/-- Model of `path/filepath.Ext`: the suffix beginning at the final dot of
the final slash-separated element; empty if there is no dot. -/
def filepathExt (s : String) : String :=
  let base := lastPathElem s.data
  let rev := base.reverse
  if rev.any (· = '.') then ⟨'.' :: (rev.takeWhile (· ≠ '.')).reverse⟩ else ""

/-! ## Content validator (`download/validator.go`) -/

/-- Errors produced by the fetcher, carrying the data the corresponding
`fmt.Errorf` calls interpolate. -/
inductive FetchError where
  | requestCreation
  | contentTypeMissing
  | invalidContentType (contentType : String)
  | netFail (attempts : Nat)
  | httpStatus (code : Nat) (attempts : Nat)
  | tooLarge (size : Int) (max : Int)
  | readFail (attempts : Nat)
  | cancelled
  | unexpectedLoop
deriving DecidableEq, Repr

/-- The accepted image MIME types of `ValidateContentType`. -/
def validTypes : List String :=
  ["image/png", "image/jpeg", "image/jpg", "image/gif", "image/webp",
   "image/svg+xml", "image/bmp", "image/tiff", "image/x-icon",
   "image/vnd.microsoft.icon"]

/-- `ValidateContentType` from `download/validator.go`: empty is rejected;
otherwise lower-case, strip `;`-parameters, trim, and check membership in
`validTypes`. Returns `none` on acceptance, `some e` on rejection. -/
def ValidateContentType (contentType : String) : Option FetchError :=
  if contentType = "" then some .contentTypeMissing
  else
    let lower := trimStr (cutAtCharGo ';' (asciiLower contentType))
    if validTypes.contains lower then none
    else some (.invalidContentType contentType)

example : ValidateContentType "image/png" = none := by decide
example : ValidateContentType "IMAGE/JPEG; charset=utf-8" = none := by decide
example : ValidateContentType "text/html" =
    some (.invalidContentType "text/html") := by decide
example : ValidateContentType "" = some .contentTypeMissing := by decide

/-! ## Storage naming (`storage/naming.go`) -/

/-- Decimal rendering of `index+1` under `%02d`: zero-padded to at least
two digits. -/
def pad2 (n : Nat) : String :=
  if n < 10 then "0" ++ Nat.repr n else Nat.repr n

/-- `GenerateFilename` from `storage/naming.go`: ensure the extension
starts with a dot, default it to `.bin`, and render `img-%02d%s` with the
1-indexed sequence number. Indices are `Nat` (the caller passes a list
length). -/
def GenerateFilename (index : Nat) (extension : String) : String :=
  let ext := if extension ≠ "" ∧ ¬ strStartsWith extension "." then
    "." ++ extension else extension
  let ext := if ext = "" then ".bin" else ext
  "img-" ++ pad2 (index + 1) ++ ext

example : GenerateFilename 0 ".png" = "img-01.png" := by decide
example : GenerateFilename 9 ".gif" = "img-10.gif" := by decide
example : GenerateFilename 0 "png" = "img-01.png" := by decide
example : GenerateFilename 0 "" = "img-01.bin" := by decide
example : GenerateFilename 99 ".webp" = "img-100.webp" := by decide

/-- The recognized image extensions of `ExtractExtensionFromURL`. -/
def validExtensions : List String :=
  [".png", ".jpg", ".jpeg", ".gif", ".webp", ".svg", ".bmp", ".tiff", ".ico"]

/-- The extension part of `ExtractExtensionFromURL` once query and
fragment are stripped: take `filepath.Ext`, lower-case it and keep it only
if it is a recognized image extension. -/
def urlExt (u : String) : String :=
  if filepathExt u = "" then ""
  else if validExtensions.contains (asciiLower (filepathExt u)) then
    asciiLower (filepathExt u)
  else ""

/-- `ExtractExtensionFromURL` from `storage/naming.go`: strip query and
fragment (Go cuts only at index > 0), then extract the extension. -/
def ExtractExtensionFromURL (url : String) : String :=
  if url = "" then ""
  else urlExt (cutAtCharGo '#' (cutAtCharGo '?' url))

example : ExtractExtensionFromURL "https://example.com/image.png?size=large" = ".png" := by decide
example : ExtractExtensionFromURL "https://example.com/IMAGE.PNG" = ".png" := by decide
example : ExtractExtensionFromURL "https://example.com/document.pdf" = "" := by decide
example : ExtractExtensionFromURL "https://example.com/image" = "" := by decide

/-- The `switch` of `getExtensionFromContentType`, applied to the
lower-cased, parameter-stripped, trimmed content type. -/
def mimeExt (lower : String) : String :=
  if lower = "image/png" then ".png"
  else if lower = "image/jpeg" ∨ lower = "image/jpg" then ".jpg"
  else if lower = "image/gif" then ".gif"
  else if lower = "image/webp" then ".webp"
  else if lower = "image/svg+xml" then ".svg"
  else if lower = "image/bmp" then ".bmp"
  else if lower = "image/tiff" then ".tiff"
  else if lower = "image/x-icon" ∨ lower = "image/vnd.microsoft.icon" then ".ico"
  else ""

/-- `getExtensionFromContentType` from `storage/naming.go` (the storage
copy: unknown and empty types map to `""`). -/
def getExtensionFromContentType (contentType : String) : String :=
  mimeExt (trimStr (cutAtCharGo ';' (asciiLower contentType)))

/-- `DetermineExtension` from `storage/naming.go`: content type first,
then URL, then `.bin`. -/
def DetermineExtension (contentType url : String) : String :=
  if contentType ≠ "" ∧ getExtensionFromContentType contentType ≠ "" then
    getExtensionFromContentType contentType
  else if url ≠ "" ∧ ExtractExtensionFromURL url ≠ "" then
    ExtractExtensionFromURL url
  else ".bin"

example : DetermineExtension "image/png" "https://example.com/image.jpg" = ".png" := by decide
example : DetermineExtension "" "https://example.com/image.jpg" = ".jpg" := by decide
example : DetermineExtension "text/plain" "https://example.com/image.png" = ".png" := by decide
example : DetermineExtension "" "" = ".bin" := by decide
example : DetermineExtension "application/pdf" "https://example.com/document.pdf" = ".bin" := by decide

/-! ## AI-sink input validation (`claude/executor.go`) -/

/-- Rejection reasons of `ValidateClaudeInput`. -/
inductive ClaudeError where
  | emptyPrompt
  | noImages
  | dangerous (pattern : String)
deriving DecidableEq, Repr

/-- The denylist the code actually checks (note `"sudo "` carries a
trailing space, and `"exec("` is present). -/
def suspiciousPatterns : List String :=
  ["rm -rf", "sudo ", "eval(", "exec(", "$(", "`"]

/-- `ValidateClaudeInput` from `claude/executor.go`: empty prompt and
empty image list are rejected, then the lower-cased prompt is scanned for
the first denylisted substring. Returns `none` on acceptance. -/
def ValidateClaudeInput (prompt : String) (images : List String) : Option ClaudeError :=
  if prompt = "" then some .emptyPrompt
  else if images.length = 0 then some .noImages
  else
    let lower := asciiLower prompt
    match suspiciousPatterns.find? (fun p => strContains lower p) with
    | some p => some (.dangerous p)
    | none => none

example : ValidateClaudeInput "describe this" ["img.png"] = none := by decide
example : ValidateClaudeInput "" ["img.png"] = some .emptyPrompt := by decide
example : ValidateClaudeInput "describe" [] = some .noImages := by decide
example : ValidateClaudeInput "RM -RF /" ["a"] = some (.dangerous "rm -rf") := by decide
example : ValidateClaudeInput "use exec(x)" ["img.png"] = some (.dangerous "exec(") := by decide
example : ValidateClaudeInput "plain sudoku" ["a"] = none := by decide

/-! ## URL extractor (`markdown/scanner.go`) -/

/-- The extension substrings `isValidImageURL` looks for. -/
def imageExtensions : List String :=
  [".png", ".jpg", ".jpeg", ".gif", ".webp", ".svg", ".bmp", ".tiff"]

/-- The host substrings `isValidImageURL` looks for. -/
def imageHosts : List String :=
  ["github.com/", "githubusercontent.com/", "imgur.com/", "i.imgur.com/",
   "imagehosting", "images/", "img/"]

/-- `isValidImageURL` from `markdown/scanner.go`: require an
`http://`/`https://`/`data:image/` scheme, then accept permissively. -/
def isValidImageURL (url : String) : Bool :=
  if url = "" then false
  else
    let lower := asciiLower url
    if ¬ (strStartsWith lower "http://" || strStartsWith lower "https://" ||
          strStartsWith lower "data:image/") then false
    else if strStartsWith lower "data:image/" then true
    else if imageExtensions.any (fun e => strContains lower e) then true
    else if imageHosts.any (fun h => strContains lower h) then true
    else true

/-- The loop of `deduplicateURLs`, with the `seen` map as a list of the
normalized URLs recorded so far. -/
def dedupGo (seen : List String) : List String → List String
  | [] => []
  | url :: rest =>
    if url = "" then dedupGo seen rest
    else
      let normalized := trimStr url
      if seen.contains normalized then dedupGo seen rest
      else normalized :: dedupGo (normalized :: seen) rest

/-- `deduplicateURLs` from `markdown/scanner.go`: drop empties, trim, and
keep the first occurrence of each normalized URL. -/
def deduplicateURLs (urls : List String) : List String :=
  dedupGo [] urls

/-- `ExtractImageURLs` from `markdown/scanner.go`. The goldmark AST walk
and the regex fallback layer execute external engines (goldmark and Go
`regexp`), so the raw image destinations the AST walk yields
(`astImages`) and the output of `extractWithPatterns` (`patternURLs`) are
parameters; the repository's own filter on AST destinations and the final
deduplication are translated concretely. -/
def ExtractImageURLs (astImages patternURLs : String → List String)
    (content : String) : List String :=
  if content = "" then []
  else
    deduplicateURLs
      ((astImages content).filter (fun u => u ≠ "" && isValidImageURL u)
        ++ patternURLs content)

/-- Specification helper: first-occurrence deduplication of a list. -/
def keepFirsts : List String → List String
  | [] => []
  | a :: l => a :: (keepFirsts l).filter (fun x => x ≠ a)

/-- Specification helper: the normalized collected-URL stream that
`deduplicateURLs` deduplicates — empties dropped, the rest trimmed. -/
def normalizedStream (urls : List String) : List String :=
  (urls.filter (fun u => u ≠ "")).map trimStr

example : deduplicateURLs ["a", "", "b", " a", "b", "c"] = ["a", "b", "c"] := by decide
example : keepFirsts (normalizedStream ["a", "", "b", " a", "b", "c"]) = ["a", "b", "c"] := by decide

/-! ## Storage backends (`storage/memory.go`, `storage/disk.go`) -/

/-- Errors of the `Store` methods. -/
inductive StoreError where
  | emptyData
  | alreadyExists (path : String)
deriving DecidableEq, Repr

/-- Error of `DiskStorage.Cleanup`: the failure count and the first
failing path, as interpolated into `"cleanup failed with %d errors: %v"`. -/
inductive CleanupError where
  | cleanupFailed (count : Nat) (first : String)
deriving DecidableEq, Repr

/-- The standard base64 alphabet used by `encoding/base64.StdEncoding`. -/
def base64Chars : List Char :=
  "ABCDEFGHIJKLMNOPQRSTUVWXYZabcdefghijklmnopqrstuvwxyz0123456789+/".data

/-- One base64 digit. -/
def b64char (n : Nat) : Char :=
  base64Chars.getD n 'A'

/-- `encoding/base64.StdEncoding.EncodeToString` on a byte list. -/
def base64Encode : List Nat → List Char
  | [] => []
  | [b1] => [b64char (b1 / 4), b64char (b1 % 4 * 16), '=', '=']
  | [b1, b2] => [b64char (b1 / 4), b64char (b1 % 4 * 16 + b2 / 16),
                 b64char (b2 % 16 * 4), '=']
  | b1 :: b2 :: b3 :: rest =>
    b64char (b1 / 4) :: b64char (b1 % 4 * 16 + b2 / 16) ::
      b64char (b2 % 16 * 4 + b3 / 64) :: b64char (b3 % 64) ::
      base64Encode rest

/-- String form of the base64 encoding. -/
def base64EncodeStr (data : List Nat) : String :=
  ⟨base64Encode data⟩

example : base64EncodeStr [77, 97, 110] = "TWFu" := by decide
example : base64EncodeStr [77, 97] = "TWE=" := by decide

/-- `MemoryStorage`: an ordered list of base64-encoded images. -/
structure MemoryStorage where
  images : List String
deriving DecidableEq, Repr

/-- `NewMemoryStorage`. -/
def NewMemoryStorage : MemoryStorage :=
  ⟨[]⟩

/-- `MemoryStorage.Store`: reject empty data, otherwise append the
encoding. Returns the result together with the updated storage (the Go
method mutates its receiver; error paths return before mutating). -/
def MemoryStorage.Store (ms : MemoryStorage) (data : List Nat)
    (_contentType _url : String) : Except StoreError String × MemoryStorage :=
  if data.length = 0 then (.error .emptyData, ms)
  else
    let encoded := base64EncodeStr data
    (.ok encoded, ⟨ms.images ++ [encoded]⟩)

/-- `MemoryStorage.Count`. -/
def MemoryStorage.Count (ms : MemoryStorage) : Nat :=
  ms.images.length

/-- The filesystem, as an association list from paths to byte contents;
lookup takes the first (most recent) entry. -/
def FS : Type := List (String × List Nat)

/-- `os.Stat` succeeding: a file exists at the path. -/
def fsExists (fs : FS) (path : String) : Bool :=
  (List.lookup path fs).isSome

/-- `os.WriteFile`: record the new contents at the path. -/
def fsWrite (fs : FS) (path : String) (data : List Nat) : FS :=
  (path, data) :: fs

/-- `DiskStorage`: output directory, force flag, and the tracked list of
written file paths. -/
structure DiskStorage where
  outputDir : String
  force : Bool
  files : List String
deriving DecidableEq, Repr

/-- `filepath.Join` for a clean directory and a bare filename. -/
def joinPath (dir name : String) : String :=
  dir ++ "/" ++ name

/-- `DiskStorage.Store` from `storage/disk.go`: reject empty data, name
the file from the current tracked-file count, refuse to overwrite an
existing file unless `force`, then write and track. The filesystem is
passed and returned explicitly; the write itself is modelled as
succeeding (`os.WriteFile` failures are orthogonal to the claims). -/
def DiskStorage.Store (ds : DiskStorage) (fs : FS) (data : List Nat)
    (contentType url : String) :
    Except StoreError String × DiskStorage × FS :=
  if data.length = 0 then (.error .emptyData, ds, fs)
  else
    let extension := DetermineExtension contentType url
    let filename := GenerateFilename ds.files.length extension
    let path := joinPath ds.outputDir filename
    if ¬ ds.force ∧ fsExists fs path then
      (.error (.alreadyExists path), ds, fs)
    else
      (.ok path, ⟨ds.outputDir, ds.force, ds.files ++ [path]⟩, fsWrite fs path data)

/-- `DiskStorage.Count`. -/
def DiskStorage.Count (ds : DiskStorage) : Nat :=
  ds.files.length

/-- `DiskStorage.Cleanup` from `storage/disk.go`: try to remove every
tracked file, collecting every failure (`removeErr` models which
`os.Remove` calls fail); if any failed, report the failure count and the
first failure and leave the tracked list untouched; only on full success
clear the list. -/
def DiskStorage.Cleanup (ds : DiskStorage) (removeErr : String → Bool) :
    Except CleanupError Unit × DiskStorage :=
  let errs := ds.files.filter removeErr
  if 0 < errs.length then
    (.error (.cleanupFailed errs.length (errs.headD "")), ds)
  else
    (.ok (), ⟨ds.outputDir, ds.force, []⟩)

/-! ## Concurrent fetcher (`download/fetcher.go`) -/

/-- The fetcher configuration. `maxSize`, `timeout` and `baseDelay` are Go
`int64` quantities (bytes / nanoseconds), `concurrency` and `maxRetries`
are worker and retry counts. -/
structure Fetcher where
  maxSize : Int
  timeout : Int
  concurrency : Nat
  maxRetries : Nat
  baseDelay : Int
deriving DecidableEq, Repr

/-- `NewFetcher`: defaults `maxRetries = 3`, `baseDelay = 500ms`
(500 000 000 ns). -/
def NewFetcher (maxSize timeout : Int) (concurrency : Nat) : Fetcher :=
  ⟨maxSize, timeout, concurrency, 3, 500000000⟩

/-- Two's-complement wrapping of an `Int` at 64 bits, for `time.Duration`
(= `int64`) arithmetic. -/
def wrap64 (n : Int) : Int :=
  (n + 2 ^ 63) % 2 ^ 64 - 2 ^ 63

/-- Go's `1 << uint(attempt)` on a 64-bit `int`: zero once the shift
reaches the width, wrapped otherwise. -/
def goShl1 (attempt : Nat) : Int :=
  if attempt < 64 then wrap64 (2 ^ attempt) else 0

/-- `calculateBackoffDelay` from `download/fetcher.go`, with `int64`
semantics made explicit: `delay := baseDelay * (1 << attempt)` (wrapping),
`jitter := delay / 4` (truncated division), then — only when `jitter` is
positive — `delay += (attempt * jitter) % jitter` (wrapping product,
truncated remainder), and finally a cap at 10 s. -/
def calculateBackoffDelay (baseDelay : Int) (attempt : Nat) : Int :=
  let delay := wrap64 (baseDelay * goShl1 attempt)
  let jitter := Int.tdiv delay 4
  let delay := if 0 < jitter then
      wrap64 (delay + Int.tmod (wrap64 ((attempt : Int) * jitter)) jitter)
    else delay
  if 10000000000 < delay then 10000000000 else delay

example : calculateBackoffDelay 500000000 0 = 500000000 := by decide
example : calculateBackoffDelay 500000000 2 = 2000000000 := by decide
example : calculateBackoffDelay 500000000 5 = 10000000000 := by decide

/-- The error-text fragments `isRetryableError` looks for. -/
def retryableErrorPatterns : List String :=
  ["connection refused", "connection reset", "timeout", "temporary failure",
   "network is unreachable", "no such host", "i/o timeout"]

/-- `isRetryableError` on the error text of a failed `client.Do`. -/
def isRetryableError (msg : String) : Bool :=
  retryableErrorPatterns.any (fun p => strContains (asciiLower msg) p)

/-- `isRetryableStatusCode`: 429 and the retried 5xx codes. -/
def isRetryableStatusCode (code : Nat) : Bool :=
  code == 429 || code == 500 || code == 502 || code == 503 || code == 504

/-- `download.Result`: one fetch outcome. `size` is the Go `int64` field. -/
structure Result where
  url : String
  data : List Nat := []
  contentType : String := ""
  size : Int := 0
  error : Option FetchError := none
deriving DecidableEq, Repr

/-- What the network presents to one iteration of the retry loop:
request-creation failure, `client.Do` failure (with its error text),
or a response with status, `Content-Type` header, declared
`Content-Length` (-1 when absent), a body-read failure flag, and the body
bytes. -/
structure AttemptEnv where
  reqErr : Bool
  doErr : Option String
  status : Nat
  contentType : String
  contentLength : Int
  bodyReadErr : Bool
  body : List Nat
deriving DecidableEq, Repr

/-- Outcome of one iteration of the retry loop: a returned `Result`, or a
`continue` after a backoff sleep of `delay` nanoseconds. The loop-carried
`result.ContentType` accumulator travels with both outcomes. -/
inductive StepOut where
  | done (r : Result)
  | retry (delay : Int) (contentType : String)
deriving DecidableEq, Repr

/-- One iteration of the retry loop of `fetchSingle`, translated
branch-for-branch from `download/fetcher.go` lines 121–200. `ct0` is the
value of `result.ContentType` carried in from earlier iterations (the Go
`result` variable lives outside the loop). -/
def attemptStep (f : Fetcher) (env : AttemptEnv) (url : String)
    (attempt : Nat) (ct0 : String) : StepOut :=
  if env.reqErr then
    .done {url := url, contentType := ct0, error := some .requestCreation}
  else
    match env.doErr with
    | some msg =>
      if attempt < f.maxRetries ∧ isRetryableError msg then
        .retry (calculateBackoffDelay f.baseDelay attempt) ct0
      else
        .done {url := url, contentType := ct0,
               error := some (.netFail (attempt + 1))}
    | none =>
      if env.status ≠ 200 then
        if attempt < f.maxRetries ∧ isRetryableStatusCode env.status then
          .retry (calculateBackoffDelay f.baseDelay attempt) ct0
        else
          .done {url := url, contentType := ct0,
                 error := some (.httpStatus env.status (attempt + 1))}
      else
        match ValidateContentType env.contentType with
        | some e => .done {url := url, contentType := ct0, error := some e}
        | none =>
          let ct := env.contentType
          if 0 < env.contentLength ∧ f.maxSize < env.contentLength then
            .done {url := url, contentType := ct,
                   error := some (.tooLarge env.contentLength f.maxSize)}
          else if env.bodyReadErr then
            if attempt < f.maxRetries then
              .retry (calculateBackoffDelay f.baseDelay attempt) ct
            else
              .done {url := url, contentType := ct,
                     error := some (.readFail (attempt + 1))}
          else
            let data := env.body.take (f.maxSize + 1).toNat
            if f.maxSize < (data.length : Int) then
              .done {url := url, contentType := ct,
                     error := some (.tooLarge (data.length : Int) f.maxSize)}
            else
              .done {url := url, contentType := ct, data := data,
                     size := (data.length : Int)}

/-- The retry loop of `fetchSingle`: the Go loop runs `attempt` from 0
while `attempt ≤ maxRetries`, so it is given `maxRetries + 1` iterations
of fuel; exhausting the fuel is exactly falling through to the post-loop
`"unexpected error in retry loop"` fallback. -/
def fetchLoop (f : Fetcher) (env : Nat → AttemptEnv) (url : String) :
    Nat → Nat → String → Result
  | _, 0, ct => {url := url, contentType := ct, error := some .unexpectedLoop}
  | attempt, fuel + 1, ct =>
    match attemptStep f (env attempt) url attempt ct with
    | .done r => r
    | .retry _ ct' => fetchLoop f env url (attempt + 1) fuel ct'

/-- `fetchSingle` from `download/fetcher.go`: run the retry loop from
attempt 0. `env` gives the network's behaviour at each attempt. -/
def fetchSingle (f : Fetcher) (env : Nat → AttemptEnv) (url : String) : Result :=
  fetchLoop f env url 0 (f.maxRetries + 1) ""

/-- The result a worker publishes when it observes a cancelled context:
only `URL` and `Error = ctx.Err()` are set. -/
def cancelResult (url : String) : Result :=
  {url := url, error := some .cancelled}

/-- The worker pool of `FetchConcurrent`/`worker`, abstracted to its
queue-consumption behaviour. The context is a static `cancelled` flag
(the claims concern never-cancelled and already-cancelled contexts).
Results are listed in queue order — the code guarantees no ordering, and
no claim depends on one. Faithful to the Go worker: a worker that sees a
non-cancelled context fetches its URL and keeps looping; a worker that
sees a cancelled context publishes a cancellation result for the URL it
just claimed and then `return`s, leaving the pool one worker smaller, so
each cancelled worker consumes exactly one queued URL. -/
def runPool (f : Fetcher) (env : String → Nat → AttemptEnv)
    (cancelled : Bool) : List String → Nat → List Result
  | [], _ => []
  | _ :: _, 0 => []
  | url :: rest, w + 1 =>
    if cancelled then cancelResult url :: runPool f env cancelled rest w
    else fetchSingle f (env url) url :: runPool f env cancelled rest (w + 1)

/-- `FetchConcurrent`: distribute the URLs over `concurrency` workers and
collect one result per consumed URL. (The Go function's `len(urls) == 0`
early return coincides with the pool on an empty queue.) -/
def FetchConcurrent (f : Fetcher) (env : String → Nat → AttemptEnv)
    (cancelled : Bool) (urls : List String) : List Result :=
  runPool f env cancelled urls f.concurrency

/-- A network that always serves a 200 PNG with the given body. -/
def okEnv (body : List Nat) : AttemptEnv :=
  { reqErr := false, doErr := none, status := 200,
    contentType := "image/png", contentLength := (body.length : Int),
    bodyReadErr := false, body := body }

example :
    fetchSingle (NewFetcher 1024 30 2) (fun _ => okEnv [7, 8]) "u" =
      {url := "u", data := [7, 8], contentType := "image/png", size := 2} := by
  decide

example :
    (fetchSingle (NewFetcher 1024 30 2)
      (fun _ => {okEnv [] with status := 404}) "u").error =
      some (.httpStatus 404 1) := by decide

/-! ## Deduplication lemmas -/

theorem keepFirsts_nodup (l : List String) : (keepFirsts l).Nodup := by
  induction l with
  | nil => exact List.nodup_nil
  | cons a l ih =>
    refine List.nodup_cons.mpr ⟨?_, ih.filter _⟩
    intro hmem
    have := List.of_mem_filter hmem
    simp at this

theorem contains_eq_mem (seen : List String) (x : String) :
    seen.contains x = decide (x ∈ seen) := by
  simp [List.elem_eq_mem]

theorem dedupGo_eq (l : List String) :
    ∀ seen : List String,
      dedupGo seen l =
        (keepFirsts (normalizedStream l)).filter (fun x => ¬ x ∈ seen) := by
  induction l with
  | nil => intro seen; simp [dedupGo, normalizedStream, keepFirsts]
  | cons url rest ih =>
    intro seen
    by_cases hu : url = ""
    · simp [dedupGo, hu, normalizedStream, ih seen]
    · rw [show normalizedStream (url :: rest) =
        trimStr url :: normalizedStream rest by simp [normalizedStream, hu]]
      rw [show keepFirsts (trimStr url :: normalizedStream rest) =
        trimStr url :: (keepFirsts (normalizedStream rest)).filter
          (fun x => x ≠ trimStr url) from rfl]
      rw [List.filter_cons]
      by_cases hs : trimStr url ∈ seen
      · rw [show dedupGo seen (url :: rest) = dedupGo seen rest by
          simp [dedupGo, hu, contains_eq_mem, hs]]
        rw [ih seen]
        rw [if_neg (by simp [hs])]
        rw [List.filter_filter]
        apply List.filter_congr
        intro x _
        by_cases hx : x = trimStr url <;> simp [hx, hs]
      · rw [show dedupGo seen (url :: rest) =
          trimStr url :: dedupGo (trimStr url :: seen) rest by
            simp [dedupGo, hu, contains_eq_mem, hs]]
        rw [ih (trimStr url :: seen)]
        rw [if_pos (by simp [hs])]
        congr 1
        rw [List.filter_filter]
        apply List.filter_congr
        intro x _
        by_cases hx : x = trimStr url <;> simp [hx, hs]

theorem deduplicateURLs_eq (l : List String) :
    deduplicateURLs l = keepFirsts (normalizedStream l) := by
  rw [deduplicateURLs, dedupGo_eq l []]
  simp

/-! ## Decimal-rendering length bounds -/

theorem toDigitsCore_length_le (b f n : Nat) (acc : List Char) :
    acc.length ≤ (Nat.toDigitsCore b f n acc).length := by
  induction f generalizing n acc with
  | zero => simp [Nat.toDigitsCore]
  | succ f ih =>
    by_cases h : n / b = 0
    · simp [Nat.toDigitsCore, h]
    · simp only [Nat.toDigitsCore, h, if_false]
      exact le_trans (by simp) (ih (n / b) (Nat.digitChar (n % b) :: acc))

theorem toDigitsCore_length_lower (b f n : Nat) (acc : List Char) (hf : 1 ≤ f) :
    acc.length + 1 ≤ (Nat.toDigitsCore b f n acc).length := by
  cases f with
  | zero => omega
  | succ f =>
    by_cases h : n / b = 0
    · simp [Nat.toDigitsCore, h]
    · simp only [Nat.toDigitsCore, h, if_false]
      have := toDigitsCore_length_le b f (n / b) (Nat.digitChar (n % b) :: acc)
      simpa using this

theorem one_le_repr_length (n : Nat) : 1 ≤ (Nat.repr n).length := by
  have := toDigitsCore_length_lower 10 (n + 1) n [] (by omega)
  simpa [Nat.repr, Nat.toDigits, List.asString, String.length] using this

theorem two_le_repr_length (n : Nat) (h : 10 ≤ n) : 2 ≤ (Nat.repr n).length := by
  have hne : ¬ n / 10 = 0 := by
    have : 1 ≤ n / 10 := (Nat.one_le_div_iff (by omega)).mpr (by omega)
    omega
  have hlow := toDigitsCore_length_lower 10 n (n / 10) [Nat.digitChar (n % 10)] (by omega)
  have hrepr : Nat.repr n = (Nat.toDigitsCore 10 (n + 1) n []).asString := rfl
  have hstep : Nat.toDigitsCore 10 (n + 1) n [] =
      Nat.toDigitsCore 10 n (n / 10) [Nat.digitChar (n % 10)] := by
    simp only [Nat.toDigitsCore, hne, if_false]
  rw [hrepr, hstep]
  simpa [List.asString, String.length] using hlow

theorem two_le_pad2_length (n : Nat) : 2 ≤ (pad2 n).length := by
  unfold pad2
  split_ifs with h
  · have := one_le_repr_length n
    simp only [String.length_append]
    have h0 : ("0" : String).length = 1 := rfl
    omega
  · exact two_le_repr_length n (by omega)

/-! ## Extension-shape lemmas -/

theorem mimeExt_cases (lower : String) :
    mimeExt lower = "" ∨
      (mimeExt lower ≠ "" ∧ strStartsWith (mimeExt lower) "." = true) := by
  unfold mimeExt
  split_ifs <;> first
    | exact Or.inl rfl
    | exact Or.inr (by constructor <;> decide)

theorem getExtensionFromContentType_cases (ct : String) :
    getExtensionFromContentType ct = "" ∨
      (getExtensionFromContentType ct ≠ "" ∧
        strStartsWith (getExtensionFromContentType ct) "." = true) :=
  mimeExt_cases _

theorem urlExt_cases (u : String) :
    urlExt u = "" ∨ (urlExt u ≠ "" ∧ strStartsWith (urlExt u) "." = true) := by
  unfold urlExt
  generalize asciiLower (filepathExt u) = e
  split_ifs with h1 h2
  · exact Or.inl rfl
  · right
    have hmem : e ∈ validExtensions := by
      simpa [contains_eq_mem] using h2
    fin_cases hmem <;> exact ⟨by decide, by decide⟩
  · exact Or.inl rfl

theorem extractExtensionFromURL_cases (url : String) :
    ExtractExtensionFromURL url = "" ∨
      (ExtractExtensionFromURL url ≠ "" ∧
        strStartsWith (ExtractExtensionFromURL url) "." = true) := by
  unfold ExtractExtensionFromURL
  split_ifs with h1
  · exact Or.inl rfl
  · exact urlExt_cases _

theorem determineExtension_dotted (ct url : String) :
    DetermineExtension ct url ≠ "" ∧
      strStartsWith (DetermineExtension ct url) "." = true := by
  unfold DetermineExtension
  split_ifs with h1 h2
  · rcases getExtensionFromContentType_cases ct with h | h
    · exact absurd h h1.2
    · exact h
  · rcases extractExtensionFromURL_cases url with h | h
    · exact absurd h h2.2
    · exact h
  · exact ⟨by decide, by decide⟩

/-! ## Claim theorems: extractor and storage -/

/-- C4: `ExtractImageURLs` is total; for every input (and any behaviour of
the external goldmark AST walk and regex fallback collectors) the output
has no duplicate entries and lists the normalized collected URLs in
first-occurrence order, and the empty input yields the empty list. -/
theorem extractImageURLs_nodup_firstOccurrence
    (astImages patternURLs : String → List String) (content : String) :
    (ExtractImageURLs astImages patternURLs content).Nodup ∧
    ExtractImageURLs astImages patternURLs content =
      (if content = "" then [] else
        keepFirsts (normalizedStream
          ((astImages content).filter (fun u => u ≠ "" && isValidImageURL u)
            ++ patternURLs content))) := by
  constructor
  · unfold ExtractImageURLs
    split
    · exact List.nodup_nil
    · rw [deduplicateURLs_eq]
      exact keepFirsts_nodup _
  · unfold ExtractImageURLs
    split
    · rfl
    · rw [deduplicateURLs_eq]

/-- C9: `Store` with empty data fails with the empty-data error and leaves
both backends' state unchanged — the tracked lists, the counts, and (for
`DiskStorage`) the filesystem. -/
theorem store_empty_data_rejected (ms : MemoryStorage) (ds : DiskStorage)
    (fs : FS) (ct url : String) :
    MemoryStorage.Store ms [] ct url = (.error .emptyData, ms) ∧
    DiskStorage.Store ds fs [] ct url = (.error .emptyData, ds, fs) ∧
    (MemoryStorage.Store ms [] ct url).2.Count = ms.Count ∧
    (DiskStorage.Store ds fs [] ct url).2.1.Count = ds.Count :=
  ⟨rfl, rfl, rfl, rfl⟩

/-- C6 counterexample: with two tracked files of which the first fails to
delete, `Cleanup` returns the failure but does **not** reset the tracked
list — `Count()` is still 2 afterwards, where the claim requires 0. -/
theorem cleanup_counterexample :
    DiskStorage.Cleanup ⟨"out", false, ["out/a", "out/b"]⟩ (fun p => p == "out/a") =
      (.error (.cleanupFailed 1 "out/a"), ⟨"out", false, ["out/a", "out/b"]⟩) ∧
    (DiskStorage.Cleanup ⟨"out", false, ["out/a", "out/b"]⟩
      (fun p => p == "out/a")).2.Count = 2 :=
  ⟨rfl, rfl⟩

/-- C6 (amended): `Cleanup` attempts the deletion of every tracked file
(the reported failure count ranges over the whole list) and surfaces the
first deletion error; when every deletion succeeds it resets the tracked
list, but after any failure the tracked list is left unchanged. -/
theorem cleanup_behavior (ds : DiskStorage) (removeErr : String → Bool) :
    (ds.files.filter removeErr = [] →
      DiskStorage.Cleanup ds removeErr = (.ok (), ⟨ds.outputDir, ds.force, []⟩)) ∧
    (ds.files.filter removeErr ≠ [] →
      DiskStorage.Cleanup ds removeErr =
        (.error (.cleanupFailed (ds.files.filter removeErr).length
            ((ds.files.filter removeErr).headD "")), ds)) := by
  constructor
  · intro h
    unfold DiskStorage.Cleanup
    rw [if_neg (by simp [h])]
  · intro h
    unfold DiskStorage.Cleanup
    rw [if_pos (by simpa using List.length_pos.mpr h)]

/-- Witness for C6 (amended): a fully successful cleanup resets the list;
a cleanup in which both deletions fail reports both failures (count 2),
names the first, and keeps the tracked list. -/
theorem cleanup_behavior_witness :
    DiskStorage.Cleanup ⟨"o", true, ["o/x"]⟩ (fun _ => false) =
      (.ok (), ⟨"o", true, []⟩) ∧
    DiskStorage.Cleanup ⟨"o", true, ["o/x", "o/y"]⟩ (fun _ => true) =
      (.error (.cleanupFailed 2 "o/x"), ⟨"o", true, ["o/x", "o/y"]⟩) := by
  constructor
  · exact (cleanup_behavior ⟨"o", true, ["o/x"]⟩ (fun _ => false)).1 rfl
  · exact (cleanup_behavior ⟨"o", true, ["o/x", "o/y"]⟩ (fun _ => true)).2 (by decide)

/-- The denylist exactly as the specification lists it (no `exec(`, and
`sudo` without a trailing space). -/
def specDenylist : List String :=
  ["rm -rf", "sudo", "eval(", "$(", "`"]

/-- The AI-sink acceptance predicate as the specification words it:
non-empty prompt, none of the spec's denylisted patterns, and at least one
non-empty image reference. -/
def specAccepts (prompt : String) (images : List String) : Bool :=
  prompt ≠ "" &&
    specDenylist.all (fun p => ! strContains (asciiLower prompt) p) &&
    images.any (fun i => i ≠ "")

/-- C7 counterexample: the prompt `"use exec(x)"` with one non-empty image
is accepted by the claim's predicate but rejected by the code (the code's
denylist also contains `exec(`); conversely a clean prompt with only an
empty image reference is rejected by the claim's predicate but accepted by
the code (only the list's non-emptiness is checked). -/
theorem validateClaudeInput_counterexample :
    specAccepts "use exec(x)" ["img.png"] = true ∧
    ValidateClaudeInput "use exec(x)" ["img.png"] = some (.dangerous "exec(") ∧
    specAccepts "hello" [""] = false ∧
    ValidateClaudeInput "hello" [""] = none :=
  ⟨rfl, rfl, rfl, rfl⟩

/-- C7 (amended): `ValidateClaudeInput` accepts exactly when the prompt is
non-empty, the image list is non-empty (individual references are not
inspected), and the lower-cased prompt contains none of the code's
denylist `rm -rf`, `sudo ` (trailing space), `eval(`, `exec(`, `$(`,
backtick. -/
theorem validateClaudeInput_characterization (prompt : String) (images : List String) :
    ValidateClaudeInput prompt images = none ↔
      prompt ≠ "" ∧ images ≠ [] ∧
        ∀ p ∈ suspiciousPatterns, strContains (asciiLower prompt) p = false := by
  unfold ValidateClaudeInput
  by_cases hp : prompt = ""
  · simp [hp]
  · by_cases hi : images.length = 0
    · have himgs : images = [] := List.length_eq_zero.mp hi
      simp [hp, hi, himgs]
    · have himg : images ≠ [] := fun h => hi (by simp [h])
      simp only [if_neg hp, if_neg hi]
      cases hfind : suspiciousPatterns.find? (fun p => strContains (asciiLower prompt) p) with
      | some q =>
        have hq := List.find?_some hfind
        have hqmem := List.mem_of_find?_eq_some hfind
        simp only []
        constructor
        · intro h
          exact absurd h (by simp)
        · rintro ⟨-, -, hall⟩
          have := hall q hqmem
          simp only [decide_eq_true_eq] at hq
          rw [hq] at this
          cases this
      | none =>
        have hall := List.find?_eq_none.mp hfind
        constructor
        · intro _
          refine ⟨hp, himg, ?_⟩
          intro p hpmem
          have := hall p hpmem
          simpa using this
        · intro _
          rfl

/-- C5: with `force = false` and non-empty data, `Store` computes its
destination as `img-NN.<ext>` where `NN` is the current stored-file count
plus one (rendered with at least two digits) and `<ext>` comes from the
content-type/URL resolution; if a file already exists at that path — as a
check of the ambient filesystem, regardless of how the file got there —
the call fails with the "already exists" error naming the path and
changes nothing; otherwise the file is written and tracked. -/
theorem diskStore_overwrite_protection (ds : DiskStorage) (fs : FS)
    (data : List Nat) (ct url : String)
    (hforce : ds.force = false) (hdata : data ≠ []) :
    GenerateFilename ds.files.length (DetermineExtension ct url) =
      "img-" ++ pad2 (ds.files.length + 1) ++ DetermineExtension ct url ∧
    2 ≤ (pad2 (ds.files.length + 1)).length ∧
    (fsExists fs (joinPath ds.outputDir
        (GenerateFilename ds.files.length (DetermineExtension ct url))) = true →
      DiskStorage.Store ds fs data ct url =
        (.error (.alreadyExists (joinPath ds.outputDir
            (GenerateFilename ds.files.length (DetermineExtension ct url)))),
         ds, fs)) ∧
    (fsExists fs (joinPath ds.outputDir
        (GenerateFilename ds.files.length (DetermineExtension ct url))) = false →
      DiskStorage.Store ds fs data ct url =
        (.ok (joinPath ds.outputDir
            (GenerateFilename ds.files.length (DetermineExtension ct url))),
         ⟨ds.outputDir, ds.force, ds.files ++
            [joinPath ds.outputDir
              (GenerateFilename ds.files.length (DetermineExtension ct url))]⟩,
         fsWrite fs (joinPath ds.outputDir
            (GenerateFilename ds.files.length (DetermineExtension ct url))) data)) := by
  obtain ⟨hne, hdot⟩ := determineExtension_dotted ct url
  have hlen : data.length ≠ 0 := fun h => hdata (List.length_eq_zero.mp h)
  refine ⟨?_, two_le_pad2_length _, ?_, ?_⟩
  · simp [GenerateFilename, hne, hdot]
  · intro hex
    unfold DiskStorage.Store
    rw [if_neg hlen, if_pos (by rw [hforce, hex]; simp)]
  · intro hex
    unfold DiskStorage.Store
    rw [if_neg hlen, if_neg (by rw [hforce, hex]; simp)]

/-- Witness for C5: a fresh storage over a directory that already holds an
externally created `out/img-01.png` refuses to store a PNG; the same call
against an empty filesystem succeeds, writing `out/img-01.png` and
tracking it. -/
theorem diskStore_overwrite_protection_witness :
    DiskStorage.Store ⟨"out", false, []⟩ [("out/img-01.png", [1])] [7]
        "image/png" "" =
      (.error (.alreadyExists "out/img-01.png"), ⟨"out", false, []⟩,
        [("out/img-01.png", [1])]) ∧
    DiskStorage.Store ⟨"out", false, []⟩ [] [7] "image/png" "" =
      (.ok "out/img-01.png", ⟨"out", false, ["out/img-01.png"]⟩,
        [("out/img-01.png", [7])]) := by
  constructor
  · exact (diskStore_overwrite_protection ⟨"out", false, []⟩
      [("out/img-01.png", [1])] [7] "image/png" "" rfl (by decide)).2.2.1 (by decide)
  · exact (diskStore_overwrite_protection ⟨"out", false, []⟩
      [] [7] "image/png" "" rfl (by decide)).2.2.2 (by decide)

/-! ## Claim theorems: backoff policy -/

/-- C8 counterexample: at attempt 35 with the default 500 ms base delay
the `int64` product `baseDelay * (1 << 35)` overflows, and
`calculateBackoffDelay` returns a negative duration instead of the
claimed capped value of 10 s. -/
theorem backoff_overflow_counterexample :
    calculateBackoffDelay (NewFetcher 1024 30 2).baseDelay 35 =
      -1266874889709551616 ∧
    calculateBackoffDelay (NewFetcher 1024 30 2).baseDelay 35 ≠ 10000000000 := by
  constructor <;> decide

set_option maxRecDepth 4000 in
/-- C8 (amended): `NewFetcher` defaults `maxRetries = 3` and
`baseDelay = 500ms`; and for every attempt small enough that the `int64`
product does not overflow (`attempt ≤ 34` at the default base delay),
`calculateBackoffDelay` equals `baseDelay * 2 ^ attempt` capped at 10 s —
the jitter term `(attempt * jitter) % jitter` contributes nothing to the
value below the cap. -/
theorem backoff_delay_characterization :
    (∀ maxSize timeout : Int, ∀ concurrency : Nat,
      (NewFetcher maxSize timeout concurrency).maxRetries = 3 ∧
      (NewFetcher maxSize timeout concurrency).baseDelay = 500000000) ∧
    (∀ a : Nat, a < 35 →
      calculateBackoffDelay 500000000 a =
        min (500000000 * 2 ^ a) 10000000000) :=
  ⟨fun _ _ _ => ⟨rfl, rfl⟩, by decide⟩

/-- Witness for C8 (amended): at attempt 3 the delay is
`500ms * 2^3 = 4s`, below the cap. -/
theorem backoff_delay_characterization_witness :
    calculateBackoffDelay 500000000 3 = min (500000000 * 2 ^ 3) 10000000000 :=
  backoff_delay_characterization.2 3 (by decide)

/-! ## Fetcher step lemmas -/

theorem validateContentType_some_shape (ct : String) (e : FetchError)
    (h : ValidateContentType ct = some e) : e ≠ FetchError.unexpectedLoop := by
  simp only [ValidateContentType] at h
  split_ifs at h
  · cases h; simp
  · cases h; simp

theorem attemptStep_done_shape (f : Fetcher) (env : AttemptEnv) (url : String)
    (attempt : Nat) (ct : String) (r : Result)
    (h : attemptStep f env url attempt ct = .done r) :
    r.error ≠ some .unexpectedLoop ∧ (r.error = none ∨ r.data = []) := by
  simp only [attemptStep] at h
  repeat' split at h
  all_goals solve
    | exact StepOut.noConfusion h
    | (cases h; constructor <;> simp)
    | (cases h;
       rename_i e heq;
       constructor <;> simp [validateContentType_some_shape _ _ heq])

theorem attemptStep_retry_lt (f : Fetcher) (env : AttemptEnv) (url : String)
    (attempt : Nat) (ct : String) (d : Int) (ct' : String)
    (h : attemptStep f env url attempt ct = .retry d ct') :
    attempt < f.maxRetries := by
  simp only [attemptStep] at h
  repeat' split at h
  all_goals first
    | exact StepOut.noConfusion h
    | tauto

theorem fetchLoop_shape (f : Fetcher) (env : Nat → AttemptEnv) (url : String) :
    ∀ (fuel attempt : Nat) (ct : String),
      attempt + fuel = f.maxRetries + 1 → attempt ≤ f.maxRetries →
      (fetchLoop f env url attempt fuel ct).error ≠ some .unexpectedLoop ∧
      ((fetchLoop f env url attempt fuel ct).error = none ∨
        (fetchLoop f env url attempt fuel ct).data = []) := by
  intro fuel
  induction fuel with
  | zero => intro attempt ct h1 h2; omega
  | succ fuel ih =>
    intro attempt ct h1 h2
    cases hstep : attemptStep f (env attempt) url attempt ct with
    | done r =>
      have hr : fetchLoop f env url attempt (fuel + 1) ct = r := by
        rw [fetchLoop, hstep]
      rw [hr]
      exact attemptStep_done_shape f (env attempt) url attempt ct r hstep
    | retry d ct' =>
      have hr : fetchLoop f env url attempt (fuel + 1) ct =
          fetchLoop f env url (attempt + 1) fuel ct' := by
        rw [fetchLoop, hstep]
      rw [hr]
      have hlt := attemptStep_retry_lt f (env attempt) url attempt ct d ct' hstep
      exact ih (attempt + 1) ct' (by omega) (by omega)

/-! ## Claim theorems: fetcher -/

/-- C10: for every fetcher configuration and every network behaviour, the
retry loop of `fetchSingle` returns from inside the loop — every retry is
guarded by `attempt < maxRetries`, so the iteration at
`attempt = maxRetries` always returns and the post-loop
`"unexpected error in retry loop"` fallback is unreachable. -/
theorem fetchSingle_no_fallback (f : Fetcher) (env : Nat → AttemptEnv)
    (url : String) :
    (fetchSingle f env url).error ≠ some .unexpectedLoop :=
  (fetchLoop_shape f env url (f.maxRetries + 1) 0 "" (by omega) (by omega)).1

theorem runPool_mem_shape (f : Fetcher) (env : String → Nat → AttemptEnv)
    (cancelled : Bool) :
    ∀ (queue : List String) (w : Nat) (r : Result),
      r ∈ runPool f env cancelled queue w → r.error = none ∨ r.data = [] := by
  intro queue
  induction queue with
  | nil => intro w r h; simp [runPool] at h
  | cons u rest ih =>
    intro w r h
    cases w with
    | zero => simp [runPool] at h
    | succ w =>
      rw [runPool] at h
      by_cases hc : cancelled
      · rw [if_pos hc] at h
        rcases List.mem_cons.mp h with rfl | h
        · exact Or.inr rfl
        · exact ih w r h
      · rw [if_neg hc] at h
        rcases List.mem_cons.mp h with rfl | h
        · exact (fetchLoop_shape f (env u) u (f.maxRetries + 1) 0 ""
            (by omega) (by omega)).2
        · exact ih (w + 1) r h

/-- C2 counterexample: a 200 response with a valid image content type and
a zero-length body yields a result with `Data` empty **and** `Error` nil —
the claimed "exactly one of {Data non-empty, Error nil} / {Error non-nil}"
fails: neither side holds. -/
theorem result_neither_counterexample :
    (fetchSingle (NewFetcher 1024 30 2) (fun _ => okEnv []) "u").data = [] ∧
    (fetchSingle (NewFetcher 1024 30 2) (fun _ => okEnv []) "u").error = none :=
  ⟨rfl, rfl⟩

/-- C2 (amended): every result of `fetchSingle` and of `FetchConcurrent`
has `Error` nil or `Data` empty — `Data` non-empty and `Error` non-nil
never hold together; but a success may carry empty `Data` (zero-length
body), so "never neither" does not hold. -/
theorem result_error_data_exclusive (f : Fetcher) (env1 : Nat → AttemptEnv)
    (url : String) (env : String → Nat → AttemptEnv) (cancelled : Bool)
    (urls : List String) :
    ((fetchSingle f env1 url).error = none ∨ (fetchSingle f env1 url).data = []) ∧
    ∀ r ∈ FetchConcurrent f env cancelled urls,
      r.error = none ∨ r.data = [] := by
  constructor
  · exact (fetchLoop_shape f env1 url (f.maxRetries + 1) 0 ""
      (by omega) (by omega)).2
  · intro r hr
    exact runPool_mem_shape f env cancelled urls f.concurrency r hr

/-- Witness for C2 (amended): the cancellation result of a cancelled
one-URL batch has empty `Data`. -/
theorem result_error_data_exclusive_witness :
    (cancelResult "a").error = none ∨ (cancelResult "a").data = [] :=
  (result_error_data_exclusive (NewFetcher 1024 30 1) (fun _ => okEnv [])
    "u" (fun _ _ => okEnv []) true ["a"]).2 (cancelResult "a") (by decide)

theorem runPool_zero_workers (f : Fetcher) (env : String → Nat → AttemptEnv)
    (cancelled : Bool) (queue : List String) :
    runPool f env cancelled queue 0 = [] := by
  cases queue <;> rfl

theorem runPool_uncancelled (f : Fetcher) (env : String → Nat → AttemptEnv) :
    ∀ (queue : List String) (w : Nat),
      runPool f env false queue (w + 1) =
        queue.map (fun u => fetchSingle f (env u) u) := by
  intro queue
  induction queue with
  | nil => intro w; rfl
  | cons u rest ih =>
    intro w
    rw [runPool, if_neg (by simp)]
    simp [ih w]

theorem runPool_cancelled (f : Fetcher) (env : String → Nat → AttemptEnv) :
    ∀ (queue : List String) (w : Nat),
      runPool f env true queue w = (queue.take w).map cancelResult := by
  intro queue
  induction queue with
  | nil => intro w; cases w <;> rfl
  | cons u rest ih =>
    intro w
    cases w with
    | zero => rfl
    | succ w =>
      rw [runPool, if_pos rfl]
      simp [ih w]

/-- C1 counterexample: with one worker and an already-cancelled context,
`FetchConcurrent` over two URLs returns a single result — the worker
publishes a cancellation result for `"a"` and then exits, and `"b"` is
skipped without any result, where the claim requires two results. -/
theorem fetchConcurrent_cancelled_counterexample :
    (FetchConcurrent (NewFetcher 1024 30 1) (fun _ _ => okEnv [1]) true
      ["a", "b"]).length = 1 ∧
    (FetchConcurrent (NewFetcher 1024 30 1) (fun _ _ => okEnv [1]) true
      ["a", "b"]).map Result.url = ["a"] :=
  ⟨rfl, rfl⟩

/-- C1 (amended): with at least one worker and a never-cancelled context,
`FetchConcurrent` returns exactly one result per input URL; with an
already-cancelled context each of the first `min(N, concurrency)` queued
URLs yields a cancellation-typed result and the remaining URLs are
skipped, so the call returns `min(N, concurrency)` results. -/
theorem fetchConcurrent_characterization (f : Fetcher)
    (env : String → Nat → AttemptEnv) (urls : List String) :
    (0 < f.concurrency →
      FetchConcurrent f env false urls =
        urls.map (fun u => fetchSingle f (env u) u)) ∧
    (0 < f.concurrency →
      (FetchConcurrent f env false urls).length = urls.length) ∧
    FetchConcurrent f env true urls = (urls.take f.concurrency).map cancelResult ∧
    (FetchConcurrent f env true urls).length = min urls.length f.concurrency := by
  have hcanc : FetchConcurrent f env true urls =
      (urls.take f.concurrency).map cancelResult :=
    runPool_cancelled f env urls f.concurrency
  refine ⟨?_, ?_, hcanc, ?_⟩
  · intro hpos
    obtain ⟨w, hw⟩ : ∃ w, f.concurrency = w + 1 := ⟨f.concurrency - 1, by omega⟩
    rw [FetchConcurrent, hw]
    exact runPool_uncancelled f env urls w
  · intro hpos
    obtain ⟨w, hw⟩ : ∃ w, f.concurrency = w + 1 := ⟨f.concurrency - 1, by omega⟩
    rw [FetchConcurrent, hw, runPool_uncancelled f env urls w]
    simp
  · rw [hcanc]
    simp [Nat.min_comm]

/-- Witness for C1 (amended): a two-worker fetcher over two URLs with a
live context returns both per-URL results in full. -/
theorem fetchConcurrent_characterization_witness :
    FetchConcurrent (NewFetcher 1024 30 2) (fun _ _ => okEnv [5]) false
        ["a", "b"] =
      [fetchSingle (NewFetcher 1024 30 2) (fun _ => okEnv [5]) "a",
       fetchSingle (NewFetcher 1024 30 2) (fun _ => okEnv [5]) "b"] :=
  (fetchConcurrent_characterization (NewFetcher 1024 30 2)
    (fun _ _ => okEnv [5]) ["a", "b"]).1 (by decide)

/-- C3: on a non-200 response — the retry loop retries (after the
computed backoff delay) exactly when the status is one of
429/500/502/503/504 and retries remain; any other non-200 status, and a
retryable status with no retries remaining, terminates at once with an
error carrying the status code and the attempt count; and on a 200
response whose content type fails validation the loop terminates at once
with the validation error, at every attempt — it never retries. -/
theorem status_code_handling (f : Fetcher) (env : AttemptEnv) (url : String)
    (attempt : Nat) (ct : String)
    (hreq : env.reqErr = false) (hdo : env.doErr = none) :
    (∀ c : Nat, isRetryableStatusCode c = true ↔
      c = 429 ∨ c = 500 ∨ c = 502 ∨ c = 503 ∨ c = 504) ∧
    (env.status ≠ 200 → isRetryableStatusCode env.status = true →
      attempt < f.maxRetries →
      attemptStep f env url attempt ct =
        .retry (calculateBackoffDelay f.baseDelay attempt) ct) ∧
    (env.status ≠ 200 → isRetryableStatusCode env.status = false →
      attemptStep f env url attempt ct =
        .done {url := url, contentType := ct,
               error := some (.httpStatus env.status (attempt + 1))}) ∧
    (env.status ≠ 200 → ¬ attempt < f.maxRetries →
      attemptStep f env url attempt ct =
        .done {url := url, contentType := ct,
               error := some (.httpStatus env.status (attempt + 1))}) ∧
    (∀ e : FetchError, env.status = 200 →
      ValidateContentType env.contentType = some e →
      attemptStep f env url attempt ct =
        .done {url := url, contentType := ct, error := some e}) := by
  refine ⟨?_, ?_, ?_, ?_, ?_⟩
  · intro c
    simp only [isRetryableStatusCode, Bool.or_eq_true, beq_iff_eq]
    tauto
  · intro h1 h2 h3
    simp [attemptStep, hreq, hdo, h1, h2, h3]
  · intro h1 h2
    simp [attemptStep, hreq, hdo, h1, h2]
  · intro h1 h2
    simp [attemptStep, hreq, hdo, h1, h2]
  · intro e h1 h2
    simp [attemptStep, hreq, hdo, h1, h2]

/-- Witness for C3: a 500 at attempt 0 retries with the 500 ms backoff; a
404 fails at once carrying status and attempt count; a 200 with
`text/html` fails at once with the validation error. -/
theorem status_code_handling_witness :
    attemptStep (NewFetcher 1024 30 2) {okEnv [] with status := 500} "u" 0 "" =
      .retry (calculateBackoffDelay 500000000 0) "" ∧
    attemptStep (NewFetcher 1024 30 2) {okEnv [] with status := 404} "u" 0 "" =
      .done {url := "u", contentType := "",
             error := some (.httpStatus 404 1)} ∧
    attemptStep (NewFetcher 1024 30 2)
        {okEnv [] with contentType := "text/html"} "u" 0 "" =
      .done {url := "u", contentType := "",
             error := some (.invalidContentType "text/html")} := by
  refine ⟨?_, ?_, ?_⟩
  · exact (status_code_handling (NewFetcher 1024 30 2)
      {okEnv [] with status := 500} "u" 0 "" rfl rfl).2.1
      (by decide) (by decide) (by decide)
  · exact (status_code_handling (NewFetcher 1024 30 2)
      {okEnv [] with status := 404} "u" 0 "" rfl rfl).2.2.1
      (by decide) (by decide)
  · exact (status_code_handling (NewFetcher 1024 30 2)
      {okEnv [] with contentType := "text/html"} "u" 0 "" rfl rfl).2.2.2.2
      (.invalidContentType "text/html") rfl rfl

end GhCcimg
